import Mathlib

/-!
# Verification of the Citadel change-aggregation / scheduled-synchronization core

Shallow embedding of the TypeScript sources:

* `src/services/tracker.ts`    — `Tracker` (change ledger, classifier)
* `src/services/scheduler.ts`  — `Scheduler` (timer-driven flush)
* `src/services/gitService.ts` — `GitService` (serialized operation queue,
  process limit, retry, timestamp formatting)
* `src/services/summaryGenerator.ts` — `SummaryGenerator`

JS `Map` objects are modelled as insertion-ordered association lists,
machine-irrelevant timestamps as `Nat`, promises settled states as `Except`,
and the atomic segments of `async` functions (the stretches of code between
`await` points, which JavaScript's single-threaded run-to-completion
semantics executes without interleaving) as individual transitions of
explicit transition systems.
-/

/-- JS `String.prototype.includes`: `sub` occurs as a contiguous substring of
`s` — i.e. `sub`'s character list is a prefix of some suffix of `s`'s (the
empty string occurs in every string). Used by `Tracker.shouldTrackFile`
(`filePath.includes(this.trackingDir)`) and by `GitService.withRetry`
(`error.message?.includes('EAGAIN')`). -/
def strIncludes (s sub : String) : Bool :=
  (List.range (s.data.length + 1)).any (fun i => sub.data.isPrefixOf (s.data.drop i))

/-! ## Tracker (`src/services/tracker.ts`) -/

/-- The `type` field of a `Change` (tracker.ts line 11):
`'changed' | 'added' | 'deleted'`. -/
inductive ChangeType where
  | changed
  | added
  | deleted
deriving DecidableEq, Repr

/-- Structure `Change` (tracker.ts lines 8–12). `uri` is represented by its `fsPath`
string; `timeStamp : Date` by a `Nat`. -/
structure Change where
  path : String
  timeStamp : Nat
  type : ChangeType
deriving DecidableEq, Repr

/-- Field `Tracker.changes : Map<string, Change>` — insertion-ordered association
list keyed by `uri.fsPath`. -/
abbrev Ledger := List (String × Change)

/-- JS `Map.prototype.set`: overwrites in place (keeping insertion order) when
the key exists, appends otherwise. -/
def mapSet (m : Ledger) (k : String) (v : Change) : Ledger :=
  if (m.lookup k).isSome then
    m.map (fun kv => if kv.1 = k then (k, v) else kv)
  else
    m ++ [(k, v)]

/-- Core of `Tracker.handleChange` (tracker.ts lines 156–176), after the
classifier has accepted the event: coalesce the incoming event type with the
existing record's type and `set` the record.

```
const existingChange = this.changes.get(uri.fsPath);
if (existingChange) {
  if (existingChange.type === 'deleted' && type === 'added') { type = 'added'; }
  else if (existingChange.type === 'added' && type === 'changed') { type = 'added'; }
}
const change = { uri, timeStamp: new Date(), type };
this.changes.set(uri.fsPath, change);
```
-/
def recordEvent (m : Ledger) (fsPath : String) (type : ChangeType) (now : Nat) : Ledger :=
  let type :=
    match m.lookup fsPath with
    | some existingChange =>
      if existingChange.type = ChangeType.deleted ∧ type = ChangeType.added then
        ChangeType.added
      else if existingChange.type = ChangeType.added ∧ type = ChangeType.changed then
        ChangeType.added
      else type
    | none => type
  mapSet m fsPath ⟨fsPath, now, type⟩

/-- Method `Tracker.getChangedFiles` (tracker.ts lines 262–266):
`Array.from(this.changes.values())`. -/
def getChangedFiles (m : Ledger) : List Change :=
  m.map Prod.snd

/-- Method `Tracker.clearChanges` (tracker.ts lines 268–273): `this.changes.clear()`
— unconditionally empties the whole map. -/
def clearChanges (_m : Ledger) : Ledger :=
  []

/-- The allow-list `trackedExtensions` of `Tracker.shouldTrackFile`
(tracker.ts lines 217–241). -/
def trackedExtensions : List String :=
  ["ts", "js", "py", "java", "c", "cpp", "h", "hpp", "css", "scss",
   "html", "jsx", "tsx", "vue", "php", "rb", "go", "rs", "swift",
   "md", "json", "yml", "yaml"]

/-- Node `path.extname`: the part of the basename from its last `.` to the
end, or `""` when the basename has no `.` or the only `.` is its first
character (dotfiles). -/
def extname (p : String) : String :=
  let base := (p.splitOn "/").getLastD ""
  let cs := base.toList
  let dotIdxs := (cs.enum.filter (fun x => x.2 = '.')).map Prod.fst
  match dotIdxs.getLast? with
  | none => ""
  | some 0 => ""
  | some i => String.mk (cs.drop i)

/-- The `fileExt` computed by `Tracker.shouldTrackFile` (tracker.ts line 216):
`path.extname(filePath).toLowerCase().slice(1)`. -/
def fileExtOf (filePath : String) : String :=
  ((extname filePath).toLower).drop 1

/-- Method `Tracker.shouldTrackFile` (tracker.ts lines 190–254).

`minimatch` (the glob-pattern library) and `vscode.workspace.asRelativePath`
are external functions, passed in abstractly.

```
if (filePath.includes(this.trackingDir)) { return false; }
const relativePath = vscode.workspace.asRelativePath(filePath);
const isExcluded = this.excludePatterns.some((pattern) => minimatch(relativePath, pattern));
if (isExcluded) { return false; }
const fileExt = path.extname(filePath).toLowerCase().slice(1);
const shouldTrack = Boolean(fileExt) && trackedExtensions.includes(fileExt);
return shouldTrack;
```
-/
def shouldTrackFile (minimatch : String → String → Bool)
    (asRelativePath : String → String)
    (trackingDir : String) (excludePatterns : List String)
    (filePath : String) : Bool :=
  if strIncludes filePath trackingDir then
    false
  else
    let relativePath := asRelativePath filePath
    let isExcluded := excludePatterns.any (fun pattern => minimatch relativePath pattern)
    if isExcluded then
      false
    else
      let fileExt := fileExtOf filePath
      (!fileExt.isEmpty) && trackedExtensions.contains fileExt

/-! ## GitService (`src/services/gitService.ts`) -/

/-- Constant `GitService.PROCESS_LIMIT` (gitService.ts line 97). -/
def PROCESS_LIMIT : Nat := 5

/-- Constant `GitService.MAX_RETRIES` (gitService.ts line 99). -/
def MAX_RETRIES : Nat := 3

/-- Constant `GitService.RETRY_DELAY` (gitService.ts line 100), in milliseconds. -/
def RETRY_DELAY : Nat := 1000

/-! ### The serialized operation queue (`GitService.enqueueOperation`,
gitService.ts lines 554–570)

```
private enqueueOperation<T>(operation: () => Promise<T>): Promise<T> {
  this.operationQueue = this.operationQueue
    .then(() => operation())
    .catch((error) => { ...log...; throw error; });
  return this.operationQueue;
}
```

The settled state of `this.operationQueue` is an `Except String Unit`
(`.ok` = fulfilled, `.error e` = rejected with message `e`). Each submitted
operation's own behaviour when invoked is an `Except String α`. Because
`.then(() => operation())` has no rejection handler, a rejected queue skips
`operation()` entirely, and the `.catch` rethrows, keeping the chain
rejected. `enqueueAll` runs a list of submitted operations through the
queue, returning for each one the pair (did its body actually execute?,
the settled state of the promise handed back to its caller). -/
def enqueueAll : Except String Unit → List (Except String Unit) → List (Bool × Except String Unit)
  | _, [] => []
  | Except.ok _, op :: rest =>
      (true, op) :: enqueueAll (match op with
        | Except.ok _ => Except.ok ()
        | Except.error e => Except.error e) rest
  | Except.error e, _ :: rest =>
      (false, Except.error e) :: enqueueAll (Except.error e) rest

/-! ### Retry with backoff (`GitService.withRetry`, gitService.ts
lines 1222–1238)

```
private async withRetry<T>(operation, retries = GitService.MAX_RETRIES): Promise<T> {
  for (let attempt = 1; attempt <= retries; attempt++) {
    try {
      return await this.withProcessLimit(operation);
    } catch (error: any) {
      if (error.message?.includes('EAGAIN') && attempt < retries) {
        await new Promise((resolve) => setTimeout(resolve, GitService.RETRY_DELAY * attempt));
        continue;
      }
      throw error;
    }
  }
  throw new Error('Maximum retry attempts reached');
}
```

The operation is modelled as a function from the attempt number to that
attempt's outcome. -/

/-- Outcome of `withRetry`: the value or the error thrown, together with the
number of attempts performed and the list of backoff delays (in ms) awaited
between attempts, in order. -/
inductive RetryResult (T : Type) where
  | ok (val : T) (attemptsUsed : Nat) (delays : List Nat)
  | err (msg : String) (attemptsUsed : Nat) (delays : List Nat)
deriving DecidableEq, Repr

/-- Attempt count of a `RetryResult`. -/
def RetryResult.attemptsUsed : RetryResult T → Nat
  | .ok _ n _ => n
  | .err _ n _ => n

/-- Backoff delays of a `RetryResult`. -/
def RetryResult.delays : RetryResult T → List Nat
  | .ok _ _ d => d
  | .err _ _ d => d

/-- The `for` loop of `withRetry`; `fuel` is the number of loop iterations
still permitted (`retries - attempt + 1` at entry). -/
def withRetryGo (op : Nat → Except String T) (retries : Nat) :
    Nat → Nat → List Nat → RetryResult T
  | 0, attempt, delays => .err "Maximum retry attempts reached" (attempt - 1) delays
  | fuel + 1, attempt, delays =>
    match op attempt with
    | Except.ok v => .ok v attempt delays
    | Except.error msg =>
      if strIncludes msg "EAGAIN" ∧ attempt < retries then
        withRetryGo op retries fuel (attempt + 1) (delays ++ [RETRY_DELAY * attempt])
      else
        .err msg attempt delays

/-- Method `GitService.withRetry` with the default `retries = MAX_RETRIES`. -/
def withRetry (op : Nat → Except String T) : RetryResult T :=
  withRetryGo op MAX_RETRIES MAX_RETRIES 1 []

/-! ### Bounded process concurrency (`GitService.withProcessLimit`,
gitService.ts lines 1209–1220)

```
private async withProcessLimit<T>(operation: () => Promise<T>): Promise<T> {
  while (this.activeProcesses >= GitService.PROCESS_LIMIT) {
    await new Promise((resolve) => setTimeout(resolve, 100));
  }
  this.activeProcesses++;
  try { return await operation(); }
  finally { this.activeProcesses--; }
}
```

State: the value of `this.activeProcesses`. Atomic segments (JavaScript's
run-to-completion semantics executes each stretch between `await`s without
interleaving):
* `enter` — the final `while` condition check that observes
  `activeProcesses < PROCESS_LIMIT` followed directly by
  `this.activeProcesses++` (no `await` between them);
* `exit` — the `finally` block's `this.activeProcesses--`, reached both when
  `operation()` fulfils (`ok = true`) and when it rejects (`ok = false`);
  it runs only for a call that already performed its increment, so it
  requires `0 < activeProcesses`. -/
inductive ProcStep : Nat → Nat → Prop
  | enter (n : Nat) : n < PROCESS_LIMIT → ProcStep n (n + 1)
  | exit (n : Nat) (ok : Bool) : 0 < n → ProcStep n (n - 1)

/-- States of `activeProcesses` reachable from its initial value `0`
(gitService.ts line 96) under interleaved `withProcessLimit` calls. -/
def ProcReachable (n : Nat) : Prop :=
  Relation.ReflTransGen ProcStep 0 n

/-! ### Timestamp formatting (`GitService.formatTimestamp`, gitService.ts
lines 1161–1207)

```
const pad = (num) => num.toString().padStart(2, '0');
const formatTime = (date) => {
  let hours = date.getHours();
  const minutes = date.getMinutes();
  const seconds = date.getSeconds();
  const ampm = hours >= 12 ? 'PM' : 'AM';
  hours = hours % 12;
  hours = hours ? hours : 12;           // the hour '0' should be '12'
  return `${pad(hours)}${pad(minutes)}-${pad(seconds)}-${ampm}`;
};
const sortableTimestamp = `${year}-${month}-${day}-${formatTime(date)}`;
```
-/

/-- The local-time components of a JS `Date` that `formatTimestamp` reads:
`getFullYear`, `getMonth() + 1` (1–12), `getDate`, `getHours` (0–23),
`getMinutes`, `getSeconds`. -/
structure DateTime where
  year : Nat
  month : Nat
  day : Nat
  hours : Nat
  minutes : Nat
  seconds : Nat
deriving DecidableEq, Repr

/-- The `pad` helper: `num.toString().padStart(2, '0')`. -/
def pad2 (num : Nat) : String :=
  let s := toString num
  if s.length < 2 then "0" ++ s else s

/-- The `formatTime` helper of `formatTimestamp`: 12-hour clock with an
`AM`/`PM` suffix. -/
def formatTime (d : DateTime) : String :=
  let ampm := if d.hours ≥ 12 then "PM" else "AM"
  let hours := d.hours % 12
  let hours := if hours = 0 then 12 else hours
  pad2 hours ++ pad2 d.minutes ++ "-" ++ pad2 d.seconds ++ "-" ++ ampm

/-- The `sortable` field of the `TimeStampFormat` returned by
`GitService.formatTimestamp`, used as the file-name prefix in
`commitAndPush` (gitService.ts line 1262). -/
def sortableTimestamp (d : DateTime) : String :=
  toString d.year ++ "-" ++ pad2 d.month ++ "-" ++ pad2 d.day ++ "-" ++ formatTime d

/-- Chronological order on the date components: year, month, day, hours,
minutes, seconds compared lexicographically — the order of the local-time
instants they denote. -/
def dateBefore (a b : DateTime) : Bool :=
  if a.year ≠ b.year then decide (a.year < b.year)
  else if a.month ≠ b.month then decide (a.month < b.month)
  else if a.day ≠ b.day then decide (a.day < b.day)
  else if a.hours ≠ b.hours then decide (a.hours < b.hours)
  else if a.minutes ≠ b.minutes then decide (a.minutes < b.minutes)
  else decide (a.seconds < b.seconds)

/-! ## Scheduler (`src/services/scheduler.ts`, embedded at
extension.ts lines 1853–1980)

`commitChanges` (lines 1893–1952):

```
async commitChanges() {
  if (this.isCommiting) { this.pendingChanges = true; return; }
  const changedFiles = this.tracker.getChangedFiles();
  if (changedFiles.length === 0) { return; }
  try {
    this.isCommiting = true;
    const commitMessage = await this.summaryGenerator.generateSummary(changedFiles);
    if (config.get<boolean>('confirmBeforeCommit', true)) {
      const userResponse = await vscode.window.showInformationMessage(...type, 'Proceed');
      if (userResponse !== 'Proceed') { return; }
    }
    await this.gitService.commitAndPush(commitMessage);
    this.tracker.clearChanges();
  } catch (error) { ... } finally {
    this.isCommiting = false;
    if (this.pendingChanges) {
      this.pendingChanges = false;
      setTimeout(() => this.commitChanges(), 5000);
    }
  }
}
```
-/

/-- Scheduler state: the fields `isCommiting` and `pendingChanges`, plus two
instrumentation counters — `flushing` counts `commitChanges` invocations
currently between `this.isCommiting = true` and the `finally` block (i.e.
flushes in progress, each wrapping one `commitAndPush`), and
`retriesScheduled` counts `setTimeout(() => this.commitChanges(), 5000)`
callbacks scheduled but not yet fired. -/
structure SchedState where
  isCommiting : Bool
  pendingChanges : Bool
  flushing : Nat
  retriesScheduled : Nat
deriving DecidableEq, Repr

/-- Initial scheduler state (extension.ts lines 1856–1857). -/
def schedInit : SchedState :=
  { isCommiting := false, pendingChanges := false, flushing := 0, retriesScheduled := 0 }

/-- The synchronous prefix of `commitChanges` (lines 1894–1910): from entry
up to and including `this.isCommiting = true`, which contains no `await`
and therefore runs as one atomic segment. `ledgerNonempty` is whether
`this.tracker.getChangedFiles()` returned a non-empty array. -/
def timerFire (s : SchedState) (ledgerNonempty : Bool) : SchedState :=
  if s.isCommiting then
    { s with pendingChanges := true }
  else if !ledgerNonempty then
    s
  else
    { s with isCommiting := true, flushing := s.flushing + 1 }

/-- The `finally` block of `commitChanges` (lines 1942–1951), again a single
atomic segment, run exactly once per invocation that entered the `try`
(success, caught failure, or early `return` on a declined confirmation). -/
def flushComplete (s : SchedState) : SchedState :=
  let s := { s with isCommiting := false, flushing := s.flushing - 1 }
  if s.pendingChanges then
    { s with pendingChanges := false, retriesScheduled := s.retriesScheduled + 1 }
  else
    s

/-- Interleaving semantics of the scheduler: a timer tick fires
`commitChanges` (its atomic prefix); an in-progress flush completes (its
`finally` block); a previously scheduled 5-second retry callback fires,
which again runs the `commitChanges` prefix. -/
inductive SchedStep : SchedState → SchedState → Prop
  | fire (s : SchedState) (ledgerNonempty : Bool) :
      SchedStep s (timerFire s ledgerNonempty)
  | complete (s : SchedState) :
      0 < s.flushing → SchedStep s (flushComplete s)
  | retryFire (s : SchedState) (ledgerNonempty : Bool) :
      0 < s.retriesScheduled →
      SchedStep s (timerFire { s with retriesScheduled := s.retriesScheduled - 1 } ledgerNonempty)

/-- Scheduler states reachable from `schedInit`. -/
def SchedReachable (s : SchedState) : Prop :=
  Relation.ReflTransGen SchedStep schedInit s

/-- The user's answer to the `showInformationMessage` confirmation dialog
(extension.ts lines 1918–1922): `'Proceed'` or anything else (another
button, `Esc`, dialog dismissed). -/
inductive ConfirmResponse where
  | proceed
  | other
deriving DecidableEq, Repr

/-- Which external calls one sequential run of the body of
`Scheduler.commitChanges` performed, and the ledger it leaves behind. -/
structure CommitRunResult where
  commitAndPushCalled : Bool
  clearChangesCalled : Bool
  ledgerAfter : Ledger
deriving DecidableEq, Repr

/-- One sequential run of `Scheduler.commitChanges` from an idle scheduler
(`isCommiting = false`), tracking its effect on the tracker's ledger and
which collaborator calls it makes. `confirmBeforeCommit` is the
`syncforge.confirmBeforeCommit` configuration value (default `true`),
`resp` the dialog answer (consulted only when the flag is set), and
`commitOk` whether `gitService.commitAndPush` fulfilled. -/
def commitChangesRun (ledger : Ledger) (confirmBeforeCommit : Bool)
    (resp : ConfirmResponse) (commitOk : Bool) : CommitRunResult :=
  let changedFiles := getChangedFiles ledger
  if changedFiles.length = 0 then
    { commitAndPushCalled := false, clearChangesCalled := false, ledgerAfter := ledger }
  else if confirmBeforeCommit ∧ resp ≠ ConfirmResponse.proceed then
    { commitAndPushCalled := false, clearChangesCalled := false, ledgerAfter := ledger }
  else if commitOk then
    { commitAndPushCalled := true, clearChangesCalled := true,
      ledgerAfter := clearChanges ledger }
  else
    { commitAndPushCalled := true, clearChangesCalled := false, ledgerAfter := ledger }

/-! ## SummaryGenerator (`src/services/summaryGenerator.ts`)

`generateSummary` (lines 28–82):

```
async generateSummary(changedFiles: Change[]): Promise<string> {
  try {
    const timeStamp = new Date().toISOString();
    let summary = `Syncforge Update - ${timeStamp}\n\n`;
    const changes = await Promise.all(changedFiles.map(async (change) => {
      const { details, snippets } = await this.getFileChanges(change);
      return { details, snippets, type: change.type };
    }));
    summary += 'Changes:\n';
    changes.forEach((change) => {
      if (change.details) { summary += `- ${change.type}: ${change.details}\n`; }
    });
    summary += '\nCode Snippets:\n';
    changes.forEach((change) => {
      if (change.snippets) { summary += `\n${change.snippets}\n`; }
    });
    await this.projectContext.addCommit(summary, changedFiles);
    return summary;
  } catch (error) {
    return `syncforge Update - ${new Date().toISOString()}\nUpdated files`;
  }
}
```
-/

/-- JS string interpolation of a `Change.type` value. -/
def ChangeType.toStr : ChangeType → String
  | ChangeType.changed => "changed"
  | ChangeType.added => "added"
  | ChangeType.deleted => "deleted"

/-- One element of the `changes` array built inside `generateSummary`:
the `details` and `snippets` strings from `getFileChanges` plus the
change's `type`. -/
structure FileChangeInfo where
  details : String
  snippets : String
  type : ChangeType
deriving DecidableEq, Repr

/-- Environment of one `generateSummary` call: the two `new Date()`
timestamps it may format, the outcome of the awaited
`Promise.all(changePromises)`, and the outcome of the awaited
`projectContext.addCommit` call. -/
structure SummaryEnv where
  timeStamp : String
  fallbackTimeStamp : String
  fileChanges : Except String (List FileChangeInfo)
  addCommit : Except String Unit

/-- The string-building portion of `generateSummary` (header, `Changes:`
section keeping only truthy `details`, `Code Snippets:` section keeping only
truthy `snippets`). -/
def composeSummary (timeStamp : String) (changes : List FileChangeInfo) : String :=
  let summary := "Syncforge Update - " ++ timeStamp ++ "\n\n"
  let summary := summary ++ "Changes:\n"
  let summary := changes.foldl
    (fun acc change =>
      if !change.details.isEmpty then
        acc ++ "- " ++ change.type.toStr ++ ": " ++ change.details ++ "\n"
      else acc)
    summary
  let summary := summary ++ "\nCode Snippets:\n"
  changes.foldl
    (fun acc change =>
      if !change.snippets.isEmpty then acc ++ "\n" ++ change.snippets ++ "\n" else acc)
    summary

/-- The `try` block of `generateSummary`: fails exactly when one of the
awaited steps rejects. -/
def generateSummaryBody (env : SummaryEnv) : Except String String := do
  let changes ← env.fileChanges
  let summary := composeSummary env.timeStamp changes
  let _ ← env.addCommit
  pure summary

/-- The fallback string built in the `catch` block of `generateSummary`. -/
def summaryFallback (fallbackTimeStamp : String) : String :=
  "syncforge Update - " ++ fallbackTimeStamp ++ "\nUpdated files"

/-- Method `SummaryGenerator.generateSummary`: the whole body is wrapped in
`try`/`catch`, so the promise always fulfils with a string — the composed
summary, or the fallback when any internal step failed. -/
def generateSummary (env : SummaryEnv) : String :=
  match generateSummaryBody env with
  | Except.ok summary => summary
  | Except.error _ => summaryFallback env.fallbackTimeStamp

/-! ## Helper lemmas on the ledger map model -/

theorem ledger_lookup_cons (a k : String) (b : Change) (rest : Ledger) :
    ((k, b) :: rest : Ledger).lookup a = if a = k then some b else rest.lookup a := by
  by_cases h : a = k
  · simp [List.lookup, h]
  · rw [if_neg h]
    show (match a == k with
      | true => some b
      | false => List.lookup a rest) = List.lookup a rest
    rw [beq_eq_false_iff_ne.mpr h]

theorem lookup_replace (k : String) (v : Change) :
    ∀ m : Ledger, (m.lookup k).isSome = true →
      (m.map (fun kv => if kv.1 = k then (k, v) else kv)).lookup k = some v := by
  intro m
  induction m with
  | nil => intro h; simp [List.lookup] at h
  | cons kv rest ih =>
    intro h
    obtain ⟨a, b⟩ := kv
    by_cases hk : a = k
    · subst hk
      simp [ledger_lookup_cons]
    · rw [ledger_lookup_cons, if_neg (fun e => hk e.symm)] at h
      simp only [List.map_cons]
      rw [if_neg hk]
      rw [ledger_lookup_cons, if_neg (fun e => hk e.symm)]
      exact ih h

theorem lookup_append_none (k : String) (v : Change) :
    ∀ m : Ledger, m.lookup k = none → ((m ++ [(k, v)] : Ledger)).lookup k = some v := by
  intro m
  induction m with
  | nil => intro _; simp [ledger_lookup_cons]
  | cons kv rest ih =>
    intro h
    obtain ⟨a, b⟩ := kv
    rw [ledger_lookup_cons] at h
    by_cases hk : k = a
    · rw [if_pos hk] at h; cases h
    · rw [if_neg hk] at h
      simp only [List.cons_append]
      rw [ledger_lookup_cons, if_neg hk]
      exact ih h

theorem mapSet_lookup_self (m : Ledger) (k : String) (v : Change) :
    (mapSet m k v).lookup k = some v := by
  unfold mapSet
  by_cases h : (m.lookup k).isSome = true
  · rw [if_pos h]; exact lookup_replace k v m h
  · rw [if_neg h]
    apply lookup_append_none
    cases hh : m.lookup k with
    | none => rfl
    | some b => rw [hh] at h; simp at h

theorem recordEvent_lookup (m : Ledger) (p : String) (t : ChangeType) (now : Nat) :
    (recordEvent m p t now).lookup p = some ⟨p, now,
      match m.lookup p with
      | some existingChange =>
        if existingChange.type = ChangeType.deleted ∧ t = ChangeType.added then
          ChangeType.added
        else if existingChange.type = ChangeType.added ∧ t = ChangeType.changed then
          ChangeType.added
        else t
      | none => t⟩ :=
  mapSet_lookup_self m p _

theorem lookup_none_not_key (k : String) :
    ∀ m : Ledger, m.lookup k = none → ∀ kv ∈ m, kv.1 ≠ k := by
  intro m
  induction m with
  | nil => intro _ kv hkv; cases hkv
  | cons a rest ih =>
    intro h kv hkv
    obtain ⟨x, y⟩ := a
    rw [ledger_lookup_cons] at h
    by_cases hx : k = x
    · rw [if_pos hx] at h; cases h
    · rw [if_neg hx] at h
      rcases List.mem_cons.mp hkv with rfl | hkv'
      · exact fun e => hx e.symm
      · exact ih h kv hkv'

/-! ## Claim C3 — kind-transition table of the ledger -/

/-- C3 counterexample: an `added` event followed by a `deleted` event on the
same path within one flush interval does **not** remove the entry.
`Tracker.handleChange` has no removal branch — it overwrites the record with
`type = 'deleted'` — so after `added` then `deleted` on `"a.ts"` the ledger
still holds a record for `"a.ts"` (with kind `deleted`), refuting
"Added then Deleted leaves no record for that path". -/
theorem added_then_deleted_keeps_record_cex :
    (recordEvent (recordEvent [] "a.ts" ChangeType.added 0) "a.ts" ChangeType.deleted 1).lookup
        "a.ts" = some ⟨"a.ts", 1, ChangeType.deleted⟩ ∧
    (recordEvent (recordEvent [] "a.ts" ChangeType.added 0) "a.ts" ChangeType.deleted 1).lookup
        "a.ts" ≠ none := by
  decide

/-- C3 (amended): for accepted events on one path, `Tracker.handleChange`
realizes the kind-transition table: `Deleted` then `Added` ⇒ `Added`;
`Added` then `Modified` ⇒ `Added`; `Modified` then `Modified` ⇒ `Modified`;
`Modified` then `Deleted` ⇒ `Deleted`; an event on an untracked path creates
a record with that event's kind; and — amended — `Added` then `Deleted`
yields a record with kind `Deleted` (the entry is overwritten, not
removed). (`changed` is the source's spelling of "Modified".) -/
theorem tracker_kind_transition_table (m : Ledger) (p : String) (e : ChangeType)
    (now : Nat) (c : Change) :
    (m.lookup p = none →
      (recordEvent m p e now).lookup p = some ⟨p, now, e⟩) ∧
    (m.lookup p = some c → c.type = ChangeType.deleted → e = ChangeType.added →
      (recordEvent m p e now).lookup p = some ⟨p, now, ChangeType.added⟩) ∧
    (m.lookup p = some c → c.type = ChangeType.added → e = ChangeType.changed →
      (recordEvent m p e now).lookup p = some ⟨p, now, ChangeType.added⟩) ∧
    (m.lookup p = some c → c.type = ChangeType.changed → e = ChangeType.changed →
      (recordEvent m p e now).lookup p = some ⟨p, now, ChangeType.changed⟩) ∧
    (m.lookup p = some c → c.type = ChangeType.changed → e = ChangeType.deleted →
      (recordEvent m p e now).lookup p = some ⟨p, now, ChangeType.deleted⟩) ∧
    (m.lookup p = some c → c.type = ChangeType.added → e = ChangeType.deleted →
      (recordEvent m p e now).lookup p = some ⟨p, now, ChangeType.deleted⟩) := by
  refine ⟨?_, ?_, ?_, ?_, ?_, ?_⟩ <;> intro h
  · rw [recordEvent_lookup, h]
  all_goals intro hc he
  all_goals subst he
  all_goals rw [recordEvent_lookup, h]
  all_goals simp [hc]

/-- Witness for `tracker_kind_transition_table`: concrete instances of the
"untracked path" row and the "Deleted then Added" row. -/
theorem tracker_kind_transition_table_witness :
    (recordEvent ([] : Ledger) "a.ts" ChangeType.added 0).lookup "a.ts" =
        some ⟨"a.ts", 0, ChangeType.added⟩ ∧
    (recordEvent [("a.ts", ⟨"a.ts", 0, ChangeType.deleted⟩)] "a.ts" ChangeType.added 1).lookup
        "a.ts" = some ⟨"a.ts", 1, ChangeType.added⟩ :=
  ⟨(tracker_kind_transition_table [] "a.ts" ChangeType.added 0
      ⟨"a.ts", 0, ChangeType.added⟩).1 rfl,
   (tracker_kind_transition_table [("a.ts", ⟨"a.ts", 0, ChangeType.deleted⟩)] "a.ts"
      ChangeType.added 1 ⟨"a.ts", 0, ChangeType.deleted⟩).2.1 (by decide) rfl rfl⟩

/-! ## Claim C6 — the classifier `Tracker.shouldTrackFile` -/

theorem ext_check_iff (e : String) :
    ((!e.isEmpty) && trackedExtensions.contains e) = true ↔ e ∈ trackedExtensions := by
  rw [Bool.and_eq_true]
  constructor
  · intro h
    simpa using h.2
  · intro h
    refine ⟨?_, by simpa using h⟩
    have hne : e ≠ "" := by
      rintro rfl
      exact absurd h (by decide)
    have hfalse : e.isEmpty = false :=
      Bool.eq_false_iff.mpr (fun hi => hne ((String.isEmpty_iff e).mp hi))
    simp [hfalse]

/-- C6: `Tracker.shouldTrackFile` accepts a path if and only if the path does
not lie inside the tracking directory (substring test, rule 1), no configured
exclude pattern matches its workspace-relative form (rule 2), and its
lower-cased extension is in the fixed allow-list (rule 3) — the three reject
rules being tested in exactly that order, first match winning (rules 2 and 3
are not evaluated when rule 1 fires, and rule 3 is not evaluated when rule 2
fires). The glob matcher (`minimatch`) and the workspace-relativization are
the external collaborators' functions, abstracted as parameters. -/
theorem shouldTrackFile_iff (minimatch : String → String → Bool)
    (asRelativePath : String → String) (trackingDir : String)
    (excludePatterns : List String) (filePath : String) :
    shouldTrackFile minimatch asRelativePath trackingDir excludePatterns filePath = true ↔
      (strIncludes filePath trackingDir = false ∧
       (∀ pattern ∈ excludePatterns, minimatch (asRelativePath filePath) pattern = false) ∧
       fileExtOf filePath ∈ trackedExtensions) := by
  unfold shouldTrackFile
  by_cases h1 : strIncludes filePath trackingDir = true
  · simp [h1]
  · rw [Bool.not_eq_true] at h1
    by_cases h2 : excludePatterns.any
        (fun pattern => minimatch (asRelativePath filePath) pattern) = true
    · rw [List.any_eq_true] at h2
      obtain ⟨pat, hpat, hmat⟩ := h2
      simp only [h1, Bool.false_eq_true, if_false, List.any_eq_true]
      rw [if_pos ⟨pat, hpat, hmat⟩]
      constructor
      · intro hfalse; cases hfalse
      · rintro ⟨-, hall, -⟩
        rw [hall pat hpat] at hmat
        cases hmat
    · simp only [h1, Bool.false_eq_true, if_false]
      rw [if_neg h2]
      rw [Bool.not_eq_true, List.any_eq_false] at h2
      rw [ext_check_iff]
      constructor
      · intro h
        exact ⟨by simp [h1], fun pattern hp => by simpa using h2 pattern hp, h⟩
      · rintro ⟨-, -, h⟩
        exact h

/-! ## Claim C1 — the serialized operation queue and failures -/

theorem enqueueAll_rejected (e : String) :
    ∀ ops : List (Except String Unit),
      enqueueAll (Except.error e) ops = ops.map (fun _ => (false, Except.error e)) := by
  intro ops
  induction ops with
  | nil => rfl
  | cons op rest ih => simp [enqueueAll, ih]

/-- C1 counterexample: submit a failing operation and then a succeeding one.
The second operation's body never executes (flag `false`) and its returned
promise rejects with the *first* operation's error — not the claimed
`(true, ok)`. The `.catch` in `enqueueOperation` rethrows, so
`operationQueue` stays rejected and the queue is poisoned. -/
theorem queue_poisoning_cex :
    (enqueueAll (Except.ok ()) [Except.error "boom", Except.ok ()])[1]? =
        some (false, Except.error "boom") ∧
    ((enqueueAll (Except.ok ()) [Except.error "boom", Except.ok ()])[1]?.map Prod.fst) =
        some false ∧
    some false ≠ some true := by
  refine ⟨rfl, rfl, ?_⟩
  simp

/-- C1 (amended): if an enqueued operation rejects, that operation's returned
promise rejects, and every operation enqueued afterwards does **not** run —
its promise rejects with the first failure's error (the failure poisons the
queue). `pre` is any prefix of fulfilling operations before the failing
one. -/
theorem queue_failure_rejects_later_operations (pre : List (Except String Unit))
    (hpre : ∀ x ∈ pre, x = Except.ok ()) (e : String)
    (rest : List (Except String Unit)) :
    enqueueAll (Except.ok ()) (pre ++ Except.error e :: rest) =
      pre.map (fun op => (true, op)) ++
        (true, Except.error e) :: rest.map (fun _ => (false, Except.error e)) := by
  induction pre with
  | nil =>
    simp only [List.nil_append, List.map_nil]
    rw [enqueueAll]
    congr 1
    exact enqueueAll_rejected e rest
  | cons x pre ih =>
    have hx : x = Except.ok () := hpre x (List.mem_cons_self x pre)
    subst hx
    simp only [List.cons_append, List.map_cons]
    rw [enqueueAll]
    congr 1
    exact ih (fun y hy => hpre y (List.mem_cons_of_mem _ hy))

/-- Witness for `queue_failure_rejects_later_operations`: one fulfilled
operation, then a failing one, then one more — the last rejects unrun. -/
theorem queue_failure_rejects_later_operations_witness :
    enqueueAll (Except.ok ()) [Except.ok (), Except.error "boom", Except.ok ()] =
      [(true, Except.ok ()), (true, Except.error "boom"), (false, Except.error "boom")] :=
  queue_failure_rejects_later_operations [Except.ok ()]
    (fun x hx => List.mem_singleton.mp hx) "boom" [Except.ok ()]

/-! ## Claim C2 — flushing versus concurrent recording -/

/-- C2 counterexample: the ledger holds a record for `"a.ts"`; the flush
snapshots it (`getChangedFiles`); while the flush awaits (summary dialog,
`commitAndPush`), an event on `"b.ts"` is recorded; at the end of the flush
`clearChanges` empties the whole map. The `"b.ts"` record was not part of
the snapshot, yet it is removed — lost rather than left for a later flush. -/
theorem flush_clear_drops_concurrent_record_cex :
    ((getChangedFiles [("a.ts", ⟨"a.ts", 0, ChangeType.changed⟩)]).all
        (fun c => c.path != "b.ts")) = true ∧
    (recordEvent [("a.ts", ⟨"a.ts", 0, ChangeType.changed⟩)] "b.ts" ChangeType.added 1).lookup
        "b.ts" = some ⟨"b.ts", 1, ChangeType.added⟩ ∧
    (clearChanges (recordEvent [("a.ts", ⟨"a.ts", 0, ChangeType.changed⟩)]
        "b.ts" ChangeType.added 1)).lookup "b.ts" = none := by
  decide

/-- C2 (amended): a change recorded after the flush's snapshot was taken is
absent from that snapshot, present in the ledger when the flush's
`clearChanges` runs, and removed by it — `Tracker.clearChanges` empties the
entire map, so the change is dropped without having been committed and
cannot appear in any later flush's snapshot. (`hkeys` states the map's
key/record consistency, which `recordEvent` maintains; `hp` says the
concurrently touched path was not already in the ledger.) -/
theorem flush_clear_drops_concurrent_record (m0 : Ledger)
    (hkeys : ∀ kv ∈ m0, kv.2.path = kv.1)
    (p : String) (hp : m0.lookup p = none) (t : ChangeType) (ts : Nat) :
    (∀ c ∈ getChangedFiles m0, c.path ≠ p) ∧
    (recordEvent m0 p t ts).lookup p = some ⟨p, ts, t⟩ ∧
    clearChanges (recordEvent m0 p t ts) = [] ∧
    getChangedFiles (clearChanges (recordEvent m0 p t ts)) = [] := by
  refine ⟨?_, ?_, rfl, rfl⟩
  · intro c hc
    obtain ⟨kv, hkv, rfl⟩ := List.mem_map.mp hc
    rw [hkeys kv hkv]
    exact lookup_none_not_key p m0 hp kv hkv
  · rw [recordEvent_lookup, hp]

/-- Witness for `flush_clear_drops_concurrent_record` at a concrete ledger. -/
theorem flush_clear_drops_concurrent_record_witness :
    (∀ c ∈ getChangedFiles [("a.ts", ⟨"a.ts", 0, ChangeType.changed⟩)], c.path ≠ "b.ts") ∧
    (recordEvent [("a.ts", ⟨"a.ts", 0, ChangeType.changed⟩)] "b.ts" ChangeType.deleted 7).lookup
        "b.ts" = some ⟨"b.ts", 7, ChangeType.deleted⟩ ∧
    clearChanges (recordEvent [("a.ts", ⟨"a.ts", 0, ChangeType.changed⟩)]
        "b.ts" ChangeType.deleted 7) = [] ∧
    getChangedFiles (clearChanges (recordEvent [("a.ts", ⟨"a.ts", 0, ChangeType.changed⟩)]
        "b.ts" ChangeType.deleted 7)) = [] :=
  flush_clear_drops_concurrent_record [("a.ts", ⟨"a.ts", 0, ChangeType.changed⟩)]
    (by decide) "b.ts" (by decide) ChangeType.deleted 7

/-! ## Claim C4 — at most one flush in progress -/

theorem sched_flushing_step (t u : SchedState) (step : SchedStep t u)
    (ih : t.flushing = if t.isCommiting then 1 else 0) :
    u.flushing = if u.isCommiting then 1 else 0 := by
  cases step with
  | fire b =>
    unfold timerFire
    by_cases h1 : t.isCommiting = true
    · simp [h1] at ih ⊢
      exact ih
    · rw [Bool.not_eq_true] at h1
      simp [h1] at ih
      cases b <;> simp [h1, ih]
  | complete hf =>
    unfold flushComplete
    by_cases hc : t.isCommiting = true <;> simp [hc] at ih <;>
      by_cases h2 : t.pendingChanges = true <;> simp [h2, ih]
  | retryFire b hr =>
    unfold timerFire
    by_cases h1 : t.isCommiting = true
    · simp [h1] at ih ⊢
      exact ih
    · rw [Bool.not_eq_true] at h1
      simp [h1] at ih
      cases b <;> simp [h1, ih]

theorem sched_flushing_eq (s : SchedState) (h : SchedReachable s) :
    s.flushing = (if s.isCommiting then 1 else 0) := by
  induction h with
  | refl => rfl
  | tail _ step ih => exact sched_flushing_step _ _ step ih

/-- C4: in every reachable scheduler state at most one flush (the stretch of
`commitChanges` wrapping `commitAndPush`) is in progress; a timer fire while
`isCommiting` holds only sets `pendingChanges` and changes nothing else; and
the `finally` block of a completing flush whose `pendingChanges` flag is set
clears the flag and schedules exactly one delayed re-flush attempt. -/
theorem scheduler_single_flush (s : SchedState) (h : SchedReachable s) :
    s.flushing ≤ 1 ∧
    (s.isCommiting = true → ∀ b, timerFire s b = { s with pendingChanges := true }) ∧
    (s.pendingChanges = true →
      (flushComplete s).pendingChanges = false ∧
      (flushComplete s).retriesScheduled = s.retriesScheduled + 1) := by
  refine ⟨?_, ?_, ?_⟩
  · have hh := sched_flushing_eq s h
    by_cases h1 : s.isCommiting = true <;> simp [h1] at hh <;> omega
  · intro hc b
    unfold timerFire
    rw [if_pos hc]
  · intro hp
    unfold flushComplete
    simp [hp]

/-- Witness for `scheduler_single_flush`: the state reached by a timer fire
on a non-empty ledger followed by a second fire while the flush runs
(`isCommiting = true`, `pendingChanges = true`, one flush in progress). -/
theorem scheduler_single_flush_witness :
    (⟨true, true, 1, 0⟩ : SchedState).flushing ≤ 1 ∧
    timerFire ⟨true, true, 1, 0⟩ true = ⟨true, true, 1, 0⟩ ∧
    (flushComplete ⟨true, true, 1, 0⟩).pendingChanges = false ∧
    (flushComplete ⟨true, true, 1, 0⟩).retriesScheduled = 0 + 1 := by
  have h1 : SchedStep schedInit ⟨true, false, 1, 0⟩ := SchedStep.fire schedInit true
  have h2 : SchedStep ⟨true, false, 1, 0⟩ ⟨true, true, 1, 0⟩ :=
    SchedStep.fire ⟨true, false, 1, 0⟩ true
  have hreach : SchedReachable ⟨true, true, 1, 0⟩ :=
    Relation.ReflTransGen.tail (Relation.ReflTransGen.single h1) h2
  obtain ⟨ha, hb, hc⟩ := scheduler_single_flush ⟨true, true, 1, 0⟩ hreach
  exact ⟨ha, hb rfl true, (hc rfl).1, (hc rfl).2⟩

/-! ## Claim C7 — the bounded process-concurrency gate -/

/-- C7: `activeProcesses` never exceeds `PROCESS_LIMIT` (= 5) in any state
reachable from its initial value 0: the gate increments the counter only
after observing it strictly below the limit (`ProcStep.enter`'s guard), and
the `finally` decrement (`ProcStep.exit`, taken on success and on failure
alike via its `ok` flag) only ever lowers it. -/
theorem process_limit_invariant (n : Nat) (h : ProcReachable n) :
    n ≤ PROCESS_LIMIT ∧ PROCESS_LIMIT = 5 := by
  refine ⟨?_, rfl⟩
  induction h with
  | refl => decide
  | tail _ step ih =>
    cases step with
    | enter hm =>
      revert hm
      unfold PROCESS_LIMIT at *
      omega
    | exit ok hm =>
      revert hm
      unfold PROCESS_LIMIT at *
      omega

/-- Witness for `process_limit_invariant`: one call has passed the gate
(counter 1, reached by an `enter` transition from 0). -/
theorem process_limit_invariant_witness : 1 ≤ PROCESS_LIMIT ∧ PROCESS_LIMIT = 5 :=
  process_limit_invariant 1
    (Relation.ReflTransGen.single (ProcStep.enter 0 (by decide)))

/-! ## Claim C5 — the retry policy of `GitService.withRetry` -/

theorem withRetryGo_attempts_le (T : Type) (op : Nat → Except String T) (retries : Nat) :
    ∀ fuel attempt delays,
      (withRetryGo op retries fuel attempt delays).attemptsUsed ≤ attempt + fuel - 1 := by
  intro fuel
  induction fuel with
  | zero =>
    intro attempt delays
    simp only [withRetryGo, RetryResult.attemptsUsed]
    omega
  | succ n ih =>
    intro attempt delays
    rw [withRetryGo]
    split
    · simp only [RetryResult.attemptsUsed]
      omega
    · split
      · calc (withRetryGo op retries n (attempt + 1)
              (delays ++ [RETRY_DELAY * attempt])).attemptsUsed
            ≤ attempt + 1 + n - 1 := ih (attempt + 1) _
          _ ≤ attempt + (n + 1) - 1 := by omega
      · simp only [RetryResult.attemptsUsed]
        omega

/-- C5: `withRetry` performs at most `MAX_RETRIES` (= 3) attempts in total;
a first-attempt success returns at once; an error whose message does not
contain `'EAGAIN'` propagates immediately with no retry and no backoff
delay; an `'EAGAIN'` error is retried after a delay of
`RETRY_DELAY * attempt` (so the waits grow linearly: 1000 ms, then
2000 ms); and the third attempt's outcome — success or any error,
`'EAGAIN'` included — is final. -/
theorem withRetry_policy (T : Type) (op : Nat → Except String T) :
    (∀ v, op 1 = Except.ok v → withRetry op = RetryResult.ok v 1 []) ∧
    (∀ msg, op 1 = Except.error msg → strIncludes msg "EAGAIN" = false →
      withRetry op = RetryResult.err msg 1 []) ∧
    (∀ msg msg2, op 1 = Except.error msg → strIncludes msg "EAGAIN" = true →
      op 2 = Except.error msg2 → strIncludes msg2 "EAGAIN" = false →
      withRetry op = RetryResult.err msg2 2 [RETRY_DELAY * 1]) ∧
    (∀ msg msg2 v, op 1 = Except.error msg → strIncludes msg "EAGAIN" = true →
      op 2 = Except.error msg2 → strIncludes msg2 "EAGAIN" = true →
      op 3 = Except.ok v →
      withRetry op = RetryResult.ok v 3 [RETRY_DELAY * 1, RETRY_DELAY * 2]) ∧
    (∀ msg msg2 msg3, op 1 = Except.error msg → strIncludes msg "EAGAIN" = true →
      op 2 = Except.error msg2 → strIncludes msg2 "EAGAIN" = true →
      op 3 = Except.error msg3 →
      withRetry op = RetryResult.err msg3 3 [RETRY_DELAY * 1, RETRY_DELAY * 2]) ∧
    (withRetry op).attemptsUsed ≤ MAX_RETRIES := by
  refine ⟨?_, ?_, ?_, ?_, ?_, ?_⟩
  · intro v h1
    simp [withRetry, MAX_RETRIES, withRetryGo, h1]
  · intro msg h1 hm
    simp [withRetry, MAX_RETRIES, withRetryGo, h1, hm]
  · intro msg msg2 h1 hm h2 hm2
    simp [withRetry, MAX_RETRIES, withRetryGo, h1, hm, h2, hm2]
  · intro msg msg2 v h1 hm h2 hm2 h3
    simp [withRetry, MAX_RETRIES, withRetryGo, h1, hm, h2, hm2, h3]
  · intro msg msg2 msg3 h1 hm h2 hm2 h3
    simp [withRetry, MAX_RETRIES, withRetryGo, h1, hm, h2, hm2, h3]
  · have hle := withRetryGo_attempts_le T op MAX_RETRIES MAX_RETRIES 1 []
    unfold withRetry
    calc (withRetryGo op MAX_RETRIES MAX_RETRIES 1 []).attemptsUsed
        ≤ 1 + MAX_RETRIES - 1 := hle
      _ ≤ MAX_RETRIES := by omega

/-- Witness for `withRetry_policy`: a non-`'EAGAIN'` error
(`'Authentication failed'`) on the first attempt propagates with no retry;
an operation that throws `'spawn EAGAIN'` twice and then succeeds uses
three attempts with 1000 ms and 2000 ms waits. -/
theorem withRetry_policy_witness :
    withRetry (fun _ => (Except.error "Authentication failed" : Except String Unit)) =
      RetryResult.err "Authentication failed" 1 [] ∧
    withRetry (fun attempt =>
      if attempt ≤ 2 then (Except.error "spawn EAGAIN" : Except String Unit)
      else Except.ok ()) =
      RetryResult.ok () 3 [RETRY_DELAY * 1, RETRY_DELAY * 2] := by
  constructor
  · exact (withRetry_policy Unit _).2.1 "Authentication failed" rfl (by decide)
  · exact (withRetry_policy Unit _).2.2.2.1 "spawn EAGAIN" "spawn EAGAIN" ()
      rfl (by decide) rfl (by decide) rfl

/-! ## Claim C8 — sortability of the timestamp file-name prefix -/

/-- C8: the `sortable` timestamp is **not** lexicographically sortable.
`formatTime` renders the hour on a 12-hour clock with the `AM`/`PM` marker
at the *end* of the string, so 12:30:00 AM (00:30 local time, rendered
`1230-00-AM`) compares lexicographically *greater* than the later instant
01:00:00 AM (rendered `0100-00-AM`) on the same day: file-name order does
not match chronological order. -/
theorem sortable_timestamp_not_sortable :
    dateBefore ⟨2024, 1, 1, 0, 30, 0⟩ ⟨2024, 1, 1, 1, 0, 0⟩ = true ∧
    sortableTimestamp ⟨2024, 1, 1, 0, 30, 0⟩ = "2024-01-01-1230-00-AM" ∧
    sortableTimestamp ⟨2024, 1, 1, 1, 0, 0⟩ = "2024-01-01-0100-00-AM" ∧
    sortableTimestamp ⟨2024, 1, 1, 1, 0, 0⟩ < sortableTimestamp ⟨2024, 1, 1, 0, 30, 0⟩ := by
  refine ⟨by decide, rfl, rfl, ?_⟩
  rw [String.lt_iff_toList_lt]
  decide

/-! ## Claim C9 — declined confirmation leaves everything untouched -/

/-- C9: when the `confirmBeforeCommit` configuration flag is enabled and the
user's dialog answer is anything but `'Proceed'`, `Scheduler.commitChanges`
returns without calling `GitService.commitAndPush` and without calling
`Tracker.clearChanges`, and the ledger afterwards is exactly the ledger
before the timer fired. -/
theorem declined_confirmation_preserves_ledger (ledger : Ledger)
    (resp : ConfirmResponse) (commitOk : Bool)
    (hresp : resp ≠ ConfirmResponse.proceed) :
    (commitChangesRun ledger true resp commitOk).commitAndPushCalled = false ∧
    (commitChangesRun ledger true resp commitOk).clearChangesCalled = false ∧
    (commitChangesRun ledger true resp commitOk).ledgerAfter = ledger := by
  unfold commitChangesRun
  by_cases h : (getChangedFiles ledger).length = 0
  · simp [h]
  · simp [h, hresp]

/-- Witness for `declined_confirmation_preserves_ledger`: a one-record
ledger, the dialog dismissed, `commitAndPush` would have succeeded. -/
theorem declined_confirmation_preserves_ledger_witness :
    (commitChangesRun [("a.ts", ⟨"a.ts", 0, ChangeType.changed⟩)] true
        ConfirmResponse.other true).commitAndPushCalled = false ∧
    (commitChangesRun [("a.ts", ⟨"a.ts", 0, ChangeType.changed⟩)] true
        ConfirmResponse.other true).clearChangesCalled = false ∧
    (commitChangesRun [("a.ts", ⟨"a.ts", 0, ChangeType.changed⟩)] true
        ConfirmResponse.other true).ledgerAfter =
      [("a.ts", ⟨"a.ts", 0, ChangeType.changed⟩)] :=
  declined_confirmation_preserves_ledger [("a.ts", ⟨"a.ts", 0, ChangeType.changed⟩)]
    ConfirmResponse.other true (by decide)

/-! ## Claim C10 — totality of `SummaryGenerator.generateSummary` -/

/-- C10: message composition is total — `generateSummary` always resolves
with a string (the whole body sits in one `try`/`catch`), and when any
awaited internal step fails (the per-file change extraction or the
`addCommit` bookkeeping call) it resolves with the fallback message: the
header line `syncforge Update - <timestamp>` followed by `Updated files`. -/
theorem generateSummary_total (env : SummaryEnv) :
    (∃ s : String, generateSummary env = s) ∧
    ((∃ e, env.fileChanges = Except.error e) ∨ (∃ e, env.addCommit = Except.error e) →
      generateSummary env = "syncforge Update - " ++ env.fallbackTimeStamp ++ "\nUpdated files") := by
  refine ⟨⟨generateSummary env, rfl⟩, ?_⟩
  intro h
  unfold generateSummary generateSummaryBody summaryFallback
  rcases h with ⟨e, he⟩ | ⟨e, he⟩
  · rw [he]
    rfl
  · cases hf : env.fileChanges with
    | error e2 => rfl
    | ok l =>
      rw [he]
      rfl

/-- Witness for `generateSummary_total`: the `addCommit` step rejects. -/
theorem generateSummary_total_witness :
    (∃ s : String, generateSummary ⟨"T1", "T2", Except.ok [], Except.error "disk full"⟩ = s) ∧
    generateSummary ⟨"T1", "T2", Except.ok [], Except.error "disk full"⟩ =
      "syncforge Update - " ++ "T2" ++ "\nUpdated files" :=
  ⟨(generateSummary_total ⟨"T1", "T2", Except.ok [], Except.error "disk full"⟩).1,
   (generateSummary_total ⟨"T1", "T2", Except.ok [], Except.error "disk full"⟩).2
     (Or.inr ⟨"disk full", rfl⟩)⟩
